import Mathlib

/-!
Verification of the eml2cal reservation-to-event pipeline.

Shallow embedding of the functions in `src/eml2cal` that the checked
properties concern: the nested-dict lookup helper `chained_get` and the
configuration resolver `get_res_conf_option` (`utils.py`, `config.py`),
the run-level deduplication loop of `process_emails` (`process.py`), the
conflict search-window arithmetic of `get_conflicts` (`cal_utils.py`),
the datetime parser `parse_datetime` (`schema_org.py`), and the
converters and augmentation helpers of `postprocess.py`.

Python dicts with heterogeneous values are embedded as the inductive
`PyVal` where the generic string-keyed traversal of `chained_get` is at
issue, and as Lean structures with `Option` fields (key present /
absent) for the fixed-schema reservation records.  Fallible Python code
(raised exceptions) is embedded as `Except PyErr`.  Calls into external
libraries (`dateutil.parser.isoparse`, `pytz`, `datetime`) are embedded
freely: their results are opaque constructors recording exactly which
call was made on which argument.
-/

/-- Exceptions that the embedded code can raise. -/
inductive PyErr where
  | typeError
  | keyError
  | valueError
  | attributeError
deriving DecidableEq

/-- A Python value as traversed by `chained_get`: a string, a list, a
string-keyed dict, or `None`. -/
inductive PyVal where
  | vStr (s : String)
  | vList (xs : List PyVal)
  | vDict (entries : List (String × PyVal))
  | vNone

/-- Membership of a string in a list of Python values, per Python `==`
(a `str` compares equal only to an equal `str`). -/
def strElem (xs : List PyVal) (k : String) : Bool :=
  xs.any (fun v => match v with
    | PyVal.vStr s => s == k
    | _ => false)

/-- Python `k in result` for a string `k`: key lookup on a dict,
substring test on a string, element test on a list; `None` supports no
membership test and raises `TypeError`. -/
def pyContains (v : PyVal) (k : String) : Except PyErr Bool :=
  match v with
  | PyVal.vDict entries => Except.ok (entries.any (fun p => p.1 == k))
  | PyVal.vStr s => Except.ok (decide (k.data <:+: s.data))
  | PyVal.vList xs => Except.ok (strElem xs k)
  | PyVal.vNone => Except.error PyErr.typeError

/-- Python `result[k]` for a string `k`: dict indexing (`KeyError` when
the key is missing); string, list and `None` indexing with a string key
raises `TypeError`. -/
def pyIndex (v : PyVal) (k : String) : Except PyErr PyVal :=
  match v with
  | PyVal.vDict entries =>
    match entries.find? (fun p => p.1 == k) with
    | some p => Except.ok p.2
    | none => Except.error PyErr.keyError
  | _ => Except.error PyErr.typeError

/-- Python `d.get(k, {})` on a dict. -/
def dictGetD (entries : List (String × PyVal)) (k : String) : PyVal :=
  match entries.find? (fun p => p.1 == k) with
  | some p => p.2
  | none => PyVal.vDict []

/-- The loop of `utils.chained_get` over `keys[1:]`: at each segment,
`if k in result: result = result[k] else: return default`. -/
def cgLoop (ks : List String) (result : PyVal) (dflt : PyVal) : Except PyErr PyVal :=
  match ks with
  | [] => Except.ok result
  | k :: rest =>
    match pyContains result k with
    | Except.error e => Except.error e
    | Except.ok true =>
      match pyIndex result k with
      | Except.error e => Except.error e
      | Except.ok v => cgLoop rest v dflt
    | Except.ok false => Except.ok dflt

/-- Helper for `splitDot`: accumulates the current segment (reversed). -/
def splitDotAux : List Char → List Char → List String
  | [], acc => [String.mk acc.reverse]
  | c :: rest, acc =>
    if c = '.' then String.mk acc.reverse :: splitDotAux rest []
    else splitDotAux rest (c :: acc)

/-- Python `key.split(".")`: always at least one segment, with empty
segments around consecutive or terminal dots (`"".split(".") == [""]`). -/
def splitDot (s : String) : List String := splitDotAux s.data []

/-- `utils.chained_get(d, key, default)`: split `key` on `"."`, start
from `d.get(keys[0], {})`, then walk the remaining segments, returning
`default` as soon as a segment is missing. -/
def chained_get (d : List (String × PyVal)) (key : String) (dflt : PyVal) :
    Except PyErr PyVal :=
  let keys := splitDot key
  cgLoop keys.tail (dictGetD d (keys.headD "")) dflt

/-- The identical traversal as `cgLoop`, instrumented: instead of the
supplied default it reports `none` exactly when the missing-segment
branch (the only `return default` in `chained_get`) is taken. -/
def cgProbe (ks : List String) (result : PyVal) : Except PyErr (Option PyVal) :=
  match ks with
  | [] => Except.ok (some result)
  | k :: rest =>
    match pyContains result k with
    | Except.error e => Except.error e
    | Except.ok true =>
      match pyIndex result k with
      | Except.error e => Except.error e
      | Except.ok v => cgProbe rest v
    | Except.ok false => Except.ok none

/-- `chained_get` instrumented to report whether the default was
returned (`Except.ok none`) rather than what it was. -/
def chainedGetProbe (d : List (String × PyVal)) (key : String) :
    Except PyErr (Option PyVal) :=
  let keys := splitDot key
  cgProbe keys.tail (dictGetD d (keys.headD ""))

/-- Python call semantics for `chained_get`, whose positional parameter
list is `(d, key, default)`: the positional arguments after `d` bind to
`key` and then `default`; more than two of them, or a positional binding
for `default` combined with the keyword argument `default=`, raises
`TypeError` before the function body runs. -/
def chainedGetCall (d : List (String × PyVal)) (posArgs : List PyVal)
    (kwDflt : Option PyVal) : Except PyErr PyVal :=
  match posArgs, kwDflt with
  | [PyVal.vStr key], none => chained_get d key PyVal.vNone
  | [PyVal.vStr key], some dflt => chained_get d key dflt
  | [PyVal.vStr key, dflt], none => chained_get d key dflt
  | _, _ => Except.error PyErr.typeError

/-- `config.get_res_conf_option(config, key, res_type, default)` as
written in `config.py`: it invokes `chained_get(config, "postprocess",
key, default=default)` for the fallback value and `chained_get(config,
"postprocess", res_type, key, default=...)` for the type-scoped value,
passing the key segments as separate positional arguments although
`utils.chained_get` takes a single dotted key string. -/
def get_res_conf_option (config : List (String × PyVal)) (key res_type : String)
    (dflt : PyVal) : Except PyErr PyVal :=
  match chainedGetCall config [PyVal.vStr "postprocess", PyVal.vStr key] (some dflt) with
  | Except.error e => Except.error e
  | Except.ok inner =>
    chainedGetCall config
      [PyVal.vStr "postprocess", PyVal.vStr res_type, PyVal.vStr key] (some inner)

/-- The event records deduplicated in `process.process_emails`, reduced
to the fields the dedup loop reads (`dtstart`, `dtend`) plus a payload
standing for all other content. -/
structure EvtRec where
  dtstart : Option Int
  dtend : Option Int
  payload : Nat
deriving DecidableEq

/-- The key the dedup loop computes for an event:
`t = (e.get("dtstart"), e.get("dtend"))`. -/
def dedupKey (e : EvtRec) : Option Int × Option Int := (e.dtstart, e.dtend)

/-- The per-event body of the run loop in `process_emails`: an event is
kept iff its `(dtstart, dtend)` pair is not in the `added_times` set,
which is extended with each kept key. -/
def dedupLoop : List (Option Int × Option Int) → List EvtRec → List EvtRec
  | _, [] => []
  | seen, e :: rest =>
    if dedupKey e ∈ seen then dedupLoop seen rest
    else e :: dedupLoop (dedupKey e :: seen) rest

/-- The run-level deduplication of `process_emails`, flattened over the
per-email batches: `added_times` starts empty and is shared across the
whole run. -/
def dedup (events : List EvtRec) : List EvtRec := dedupLoop [] events

/-- A Python `date` (bare date, no time-of-day) or `datetime`, measured
in days resp. seconds; `midnight` of day `d` is second `86400 * d`. -/
inductive PyDate where
  | date (day : Int)
  | datetime (sec : Int)
deriving DecidableEq

def secondsPerDay : Int := 86400

/-- The search-window computation of `cal_utils.get_conflicts`: raise
`ValueError` when the event has no start; turn a bare-date start into
that day's midnight (and, when the end is absent, the end into midnight
of the next day); turn a bare-date end into midnight of the day after
it; and when the end is still absent, use `(start - 1 s, start + 1 s)`.
Returns the `(start, end)` pair handed to `cal.search`. -/
def get_conflicts_window (dtstart dtend : Option PyDate) :
    Except PyErr (Int × Int) :=
  match dtstart with
  | none => Except.error PyErr.valueError
  | some start =>
    let p1 : Int × Option PyDate :=
      match start with
      | PyDate.datetime t => (t, dtend)
      | PyDate.date d =>
        let s := secondsPerDay * d
        match dtend with
        | none => (s, some (PyDate.datetime (s + secondsPerDay)))
        | some e => (s, some e)
    let e2 : Option Int :=
      match p1.2 with
      | none => none
      | some (PyDate.datetime t) => some t
      | some (PyDate.date d) => some (secondsPerDay * d + secondsPerDay)
    match e2 with
    | none => Except.ok (p1.1 - 1, p1.1 + 1)
    | some t => Except.ok (p1.1, t)

/-- The result of a call into the external datetime library, embedded
freely: `parsed s` is `isoparse(s)` as parsed; `inZone s tz` is
`isoparse(s).astimezone(timezone(tz))`; `utcOf` is
`(...).astimezone(pytz.utc)`. -/
inductive ParsedDT where
  | parsed (s : String)
  | inZone (s : String) (tz : String)
deriving DecidableEq

/-- A time value as received from the extractor: either a plain ISO
string or a dict with an `@value` string and an optional `timezone`
name. -/
inductive TimeVal where
  | str (s : String)
  | dict (value : String) (tz : Option String)
deriving DecidableEq

/-- Python truthiness of a time value: an empty string is falsy; a dict
carrying an `@value` key is non-empty, hence truthy. -/
def TimeVal.truthy : TimeVal → Bool
  | TimeVal.str s => s != ""
  | TimeVal.dict _ _ => true

/-- `schema_org.parse_datetime`: a string is returned as parsed; for a
dict, `isoparse(dt_data["@value"])` is converted to the named zone when
a `timezone` key is present — but when it is absent the function body
falls off the end of the `elif` branch without a `return`, so the call
returns `None` (embedded as `none`). -/
def parse_datetime : TimeVal → Option ParsedDT
  | TimeVal.str s => some (ParsedDT.parsed s)
  | TimeVal.dict v tz? =>
    match tz? with
    | some tz => some (ParsedDT.inZone v tz)
    | none => none

/-- A `geo` record; a geo dict always carries both keys, and the code
reads `geo_dict["latitude"]` / `geo_dict["longitude"]` directly. -/
structure Geo where
  latitude : Int
  longitude : Int
deriving DecidableEq

/-- A postal-address record (`address` dicts), each key optional. -/
structure Address where
  streetAddress : Option String
  addressLocality : Option String
  postalCode : Option String
  addressCountry : Option String
deriving DecidableEq

/-- A nested `location` record as consulted by `get_location`. -/
structure LocationRec where
  address : Option Address
  geo : Option Geo
deriving DecidableEq

/-- An `airline` record. -/
structure Airline where
  iataCode : Option String
deriving DecidableEq

/-- An airport record (`departureAirport` / `arrivalAirport`). -/
structure Airport where
  name : Option String
  iataCode : Option String
  geo : Option Geo
  address : Option Address
deriving DecidableEq

/-- Python truthiness of an airport dict: truthy iff non-empty, i.e.
iff at least one of its keys is present. -/
def Airport.truthy (a : Airport) : Bool :=
  a.name.isSome || a.iataCode.isSome || a.geo.isSome || a.address.isSome

/-- One entry of a `potentialAction` list: its `@type` and an optional
`target` URL. -/
structure ActionRec where
  atType : String
  target : Option String
deriving DecidableEq

/-- The four scheduling keys (`startTime`, `startDate`, `endTime`,
`endDate`) that `get_times` reads from both the reservation dict and
its `reservationFor` dict. -/
structure SchedTimes where
  startTime : Option TimeVal
  startDate : Option TimeVal
  endTime : Option TimeVal
  endDate : Option TimeVal
deriving DecidableEq

/-- A `reservationFor` record, with the fields the converters read. -/
structure ResFor where
  name : Option String
  sched : SchedTimes
  departureTime : Option TimeVal
  arrivalTime : Option TimeVal
  departureDay : Option String
  departureTerminal : Option String
  airline : Option Airline
  flightNumber : Option String
  departureAirport : Option Airport
  arrivalAirport : Option Airport
  address : Option Address
  location : Option LocationRec
  geo : Option Geo
deriving DecidableEq

/-- The empty dict `{}` substituted by `reservation.get("reservationFor", {})`. -/
def ResFor.empty : ResFor :=
  ⟨none, ⟨none, none, none, none⟩, none, none, none, none, none, none, none,
   none, none, none, none⟩

/-- A reservation record, with the fields the converters read. -/
structure Reservation where
  atType : String
  reservationFor : Option ResFor
  sched : SchedTimes
  reservationNumber : Option String
  potentialAction : Option (List ActionRec)
  checkinTime : Option TimeVal
  checkoutTime : Option TimeVal
deriving DecidableEq

/-- A datetime-like value stored on an event: the result of
`parse_datetime` added as-is, a `date.fromisoformat` bare date, or a
parse result converted to UTC via `.astimezone(pytz.utc)`. -/
inductive EventDT where
  | fromParsed (p : ParsedDT)
  | isoDate (s : String)
  | utc (p : ParsedDT)
deriving DecidableEq

/-- An `icalendar.Event`, reduced to the properties the code sets.
`description` is a list because `event.add` appends a further value
when the property already exists. -/
structure ICalEvent where
  dtstart : Option EventDT
  dtend : Option EventDT
  duration : Option Int
  location : Option String
  geo : Option Geo
  summary : Option String
  description : List String
  categories : Option (List String)
  attendees : List String
deriving DecidableEq

/-- The `found` dict of `get_times` (`start` / `end` slots). -/
structure Found where
  start : Option ParsedDT
  stop : Option ParsedDT
deriving DecidableEq

/-- The loop variable `s` of `get_times`: `"start"` or `"end"`. -/
inductive Side where
  | start
  | stop
deriving DecidableEq

def Found.get : Found → Side → Option ParsedDT
  | f, Side.start => f.start
  | f, Side.stop => f.stop

def Found.set : Found → Side → Option ParsedDT → Found
  | f, Side.start, v => { f with start := v }
  | f, Side.stop, v => { f with stop := v }

/-- `d.get(k)` for `k = s + "Time"` (`tkind = true`) or `s + "Date"`
(`tkind = false`). -/
def SchedTimes.get : SchedTimes → Side → Bool → Option TimeVal
  | d, Side.start, true => d.startTime
  | d, Side.start, false => d.startDate
  | d, Side.stop, true => d.endTime
  | d, Side.stop, false => d.endDate

/-- The innermost loop of `get_times` (`for d in (reservation,
reservation.get("reservationFor", {}))`): when the looked-up value is
truthy and the slot for side `s` is still falsy, the slot is assigned
`parse_datetime(f)` (which may itself be `None`); when afterwards both
slots are truthy the loop breaks. -/
def dLoop (s : Side) (tkind : Bool) : Found → List SchedTimes → Found
  | found, [] => found
  | found, d :: rest =>
    match d.get s tkind, found.get s with
    | some f, none =>
      if f.truthy then
        let found' := found.set s (parse_datetime f)
        if found'.start.isSome && found'.stop.isSome then found'
        else dLoop s tkind found' rest
      else dLoop s tkind found rest
    | _, _ => dLoop s tkind found rest

/-- `postprocess.get_times`: the triple loop `for s in ("start",
"end"): for k in (s + "Time", s + "Date"): for d in (reservation,
reservation.get("reservationFor", {}))`, unrolled over `s` and `k`. -/
def get_times (r : Reservation) : Option ParsedDT × Option ParsedDT :=
  let ds := [r.sched, (r.reservationFor.getD ResFor.empty).sched]
  let f1 := dLoop Side.start true ⟨none, none⟩ ds
  let f2 := dLoop Side.start false f1 ds
  let f3 := dLoop Side.stop true f2 ds
  let f4 := dLoop Side.stop false f3 ds
  (f4.start, f4.stop)

/-- Python truthiness of an address dict: truthy iff non-empty, i.e.
iff at least one of its keys is present. -/
def Address.truthy (a : Address) : Bool :=
  a.streetAddress.isSome || a.addressLocality.isSome || a.postalCode.isSome
    || a.addressCountry.isSome

/-- The `address_lines` accumulation of `get_location`: the present
parts among street, locality, postal code, country, in that order. -/
def addressLines (a : Address) : List String :=
  [a.streetAddress, a.addressLocality, a.postalCode, a.addressCountry].reduceOption

/-- `postprocess.get_location`: the address dict is
`chained_get(reservation, "reservationFor.address", default =
chained_get(reservation, "reservationFor.location.address"))` — the
fallback is used only when the `address` key is missing — and the geo
dict is found the same way; a truthy address dict is rendered by
joining its present parts with `". "`. -/
def get_location (r : Reservation) : Option String × Option Geo :=
  let rf? := r.reservationFor
  let addr? : Option Address :=
    match rf? >>= ResFor.address with
    | some a => some a
    | none => rf? >>= ResFor.location >>= LocationRec.address
  let address : Option String :=
    match addr? with
    | some a =>
      if a.truthy then some (String.intercalate ". " (addressLines a)) else none
    | none => none
  let geo? : Option Geo :=
    match rf? >>= ResFor.geo with
    | some g => some g
    | none => rf? >>= ResFor.location >>= LocationRec.geo
  (address, geo?)

/-- `OrderedDict` assignment `actions[a["@type"]] = a["target"]`: an
existing key keeps its position and its value is replaced, a new key is
appended at the end. -/
def odInsert (m : List (String × String)) (k v : String) : List (String × String) :=
  if m.any (fun p => p.1 == k) then
    m.map (fun p => if p.1 == k then (p.1, v) else p)
  else m ++ [(k, v)]

/-- The loop of `get_action_urls` over `reservation["potentialAction"]`:
only actions with a `target` key are recorded. -/
def actionUrlsLoop : List ActionRec → List (String × String) → List (String × String)
  | [], m => m
  | a :: rest, m =>
    match a.target with
    | some t => actionUrlsLoop rest (odInsert m a.atType t)
    | none => actionUrlsLoop rest m

/-- `postprocess.get_action_urls`: `None` when no `potentialAction`
key, else the ordered type-to-target dict. -/
def get_action_urls (pa : Option (List ActionRec)) :
    Option (List (String × String)) :=
  match pa with
  | none => none
  | some actions => some (actionUrlsLoop actions [])

/-- Python `s.rstrip(chars)`: removes trailing characters as long as
they belong to the character set `chars` (not the suffix `chars`). -/
def pyRstrip (s : String) (chars : String) : String :=
  String.mk ((s.data.reverse.dropWhile (fun c => chars.data.contains c)).reverse)

/-- The `desc_lines` accumulation of
`generic_reservation_to_ical_event`: a reservation-number line when
`reservationNumber` is truthy, then one line `f"{aname}: {url}"` per
entry of `get_action_urls`, where `aname = a.rstrip("Action")`. -/
def genericDescLines (r : Reservation) : List String :=
  let resLines : List String :=
    match r.reservationNumber with
    | some n => if n != "" then ["Reservation number: " ++ n] else []
    | none => []
  let actionLines : List String :=
    match get_action_urls r.potentialAction with
    | none => []
    | some m => m.map (fun p => pyRstrip p.1 "Action" ++ ": " ++ p.2)
  resLines ++ actionLines

/-- `postprocess.generic_reservation_to_ical_event`:
`reservation["reservationFor"]` raises `KeyError` when absent;
otherwise the event gets its times from `get_times` (each added only
when truthy), location and geo from `get_location`, the summary from
`res_for["name"]` when that key is present, and a description joining
`desc_lines` with newlines when any line exists. -/
def generic_reservation_to_ical_event (r : Reservation) :
    Except PyErr (Option ICalEvent) :=
  match r.reservationFor with
  | none => Except.error PyErr.keyError
  | some rf =>
    let ts := get_times r
    let loc := get_location r
    let lines := genericDescLines r
    Except.ok (some
      { dtstart := ts.1.map EventDT.fromParsed
        dtend := ts.2.map EventDT.fromParsed
        duration := none
        location := loc.1
        geo := loc.2
        summary := rf.name
        description := if lines.isEmpty then [] else [String.intercalate "\n" lines]
        categories := none
        attendees := [] })

/-- Python truthiness of an optional string (`None` and `""` falsy). -/
def truthyOS : Option String → Bool
  | none => false
  | some s => s != ""

/-- `utils.airport_repr`: name alone when only the name is truthy, code
alone when only the code is truthy, `"name (code)"` when both are, else
`None`. -/
def airport_repr (name iata : Option String) : Option String :=
  if truthyOS name && !(truthyOS iata) then name
  else if truthyOS iata && !(truthyOS name) then iata
  else if truthyOS name && truthyOS iata then
    some (name.getD "" ++ " (" ++ iata.getD "" ++ ")")
  else none

/-- The dtstart-fallback of `flight_reservation_to_ical_event`: a
truthy `departureTime` is parsed (`event.add("dtstart", None)` raises
`ValueError` inside icalendar when `parse_datetime` returned `None`);
else a truthy `departureDay` becomes a bare date; else the converter
returns `None` (embedded as `Except.ok none`). -/
def flightDepStart (rf : ResFor) : Except PyErr (Option EventDT) :=
  let dayStart : Except PyErr (Option EventDT) :=
    match rf.departureDay with
    | some dd => if dd != "" then Except.ok (some (EventDT.isoDate dd)) else Except.ok none
    | none => Except.ok none
  match rf.departureTime with
  | some dep =>
    if dep.truthy then
      match parse_datetime dep with
      | some p => Except.ok (some (EventDT.fromParsed p))
      | none => Except.error PyErr.valueError
    else dayStart
  | none => dayStart

/-- The straight-line tail of `flight_reservation_to_ical_event` after
the flight identifier is formed (no exceptions can be raised from here
on): the departure-location and geo fields from a truthy
`departureAirport` (Python `"".join` is written as concatenation), the
summary string built with `airport_repr`, and a reservation-number
description line mirroring the summary. -/
def flightFinish (r : Reservation) (rf : ResFor) (flight_iata : String)
    (ev2 : ICalEvent) : ICalEvent :=
  let depInfo : Option String × Option String × ICalEvent :=
    match rf.departureAirport with
    | some a =>
      if a.truthy then
        let ev3 :=
          match a.geo with
          | some g => { ev2 with geo := some g }
          | none => ev2
        let dep_country := a.address >>= Address.addressCountry
        let dep_location :=
          (match rf.departureTerminal with
           | some t => if t != "" then "Terminal " ++ t ++ ", " else ""
           | none => "")
          ++ a.name.getD ""
          ++ (match a.iataCode with
              | some i => if i != "" then " (" ++ i ++ ")" else ""
              | none => "")
          ++ (match dep_country with
              | some c => if c != "" then ", " ++ c else ""
              | none => "")
        (a.name, a.iataCode, { ev3 with location := some dep_location })
      else (none, none, ev2)
    | none => (none, none, ev2)
  let arr_name := rf.arrivalAirport >>= Airport.name
  let arr_iata := rf.arrivalAirport >>= Airport.iataCode
  let nameStr :=
    "Flight"
    ++ (if flight_iata != "" then " " ++ flight_iata else "")
    ++ ": "
    ++ (airport_repr depInfo.1 depInfo.2.1).getD ""
    ++ " to "
    ++ (airport_repr arr_name arr_iata).getD "[unknown]"
  let ev4 := { depInfo.2.2 with summary := some nameStr }
  match r.reservationNumber with
  | some n =>
    if n != "" then
      { ev4 with description :=
          ev4.description ++ [nameStr ++ "\nReservation number: " ++ n] }
    else ev4
  | none => ev4

/-- `postprocess.flight_reservation_to_ical_event`, on top of the
generic converter: the dtstart fallback, the arrival-time dtend
(`parse_datetime(...).astimezone(utc)`; `None.astimezone` raises
`AttributeError`), the flight identifier (`airline_iata +
res_for.get("flightNumber")` raises `TypeError` when `flightNumber` is
absent, since `str + None` is unsupported), then the pure tail
`flightFinish`. -/
def flight_reservation_to_ical_event (r : Reservation) :
    Except PyErr (Option ICalEvent) :=
  match generic_reservation_to_ical_event r with
  | Except.error e => Except.error e
  | Except.ok none => Except.ok none
  | Except.ok (some ev0) =>
    match r.reservationFor with
    | none => Except.error PyErr.keyError
    | some rf =>
      let startE : Except PyErr (Option EventDT) :=
        if ev0.dtstart.isSome then Except.ok ev0.dtstart else flightDepStart rf
      match startE with
      | Except.error e => Except.error e
      | Except.ok none => Except.ok none
      | Except.ok (some ds) =>
        let ev1 := { ev0 with dtstart := some ds }
        let dtendE : Except PyErr (Option EventDT) :=
          if ev1.dtend.isSome then Except.ok ev1.dtend
          else
            match rf.arrivalTime with
            | some arr =>
              match parse_datetime arr with
              | some p => Except.ok (some (EventDT.utc p))
              | none => Except.error PyErr.attributeError
            | none => Except.ok ev1.dtend
        match dtendE with
        | Except.error e => Except.error e
        | Except.ok de =>
          let ev2 := { ev1 with dtend := de }
          let airline_iata := ((rf.airline.getD { iataCode := none }).iataCode).getD ""
          match rf.flightNumber with
          | none => Except.error PyErr.typeError
          | some fn =>
            Except.ok (some (flightFinish r rf (airline_iata ++ fn) ev2))

/-- `postprocess.lodging_reservation_to_ical_event`, on top of the
generic converter: dtstart from a truthy `checkinTime` (else the
converter returns `None`), dtend from a truthy `checkoutTime` when not
already set. -/
def lodging_reservation_to_ical_event (r : Reservation) :
    Except PyErr (Option ICalEvent) :=
  match generic_reservation_to_ical_event r with
  | Except.error e => Except.error e
  | Except.ok none => Except.ok none
  | Except.ok (some ev0) =>
    let startE : Except PyErr (Option EventDT) :=
      if ev0.dtstart.isSome then Except.ok ev0.dtstart
      else
        match r.checkinTime with
        | some ci =>
          if ci.truthy then
            match parse_datetime ci with
            | some p => Except.ok (some (EventDT.fromParsed p))
            | none => Except.error PyErr.valueError
          else Except.ok none
        | none => Except.ok none
    match startE with
    | Except.error e => Except.error e
    | Except.ok none => Except.ok none
    | Except.ok (some ds) =>
      let ev1 := { ev0 with dtstart := some ds }
      let endE : Except PyErr (Option EventDT) :=
        if ev1.dtend.isSome then Except.ok ev1.dtend
        else
          match r.checkoutTime with
          | some co =>
            if co.truthy then
              match parse_datetime co with
              | some p => Except.ok (some (EventDT.fromParsed p))
              | none => Except.error PyErr.valueError
            else Except.ok ev1.dtend
          | none => Except.ok ev1.dtend
      match endE with
      | Except.error e => Except.error e
      | Except.ok de => Except.ok (some { ev1 with dtend := de })

/-- `postprocess.event_is_valid`: `("dtstart" in event) and ("summary"
in event)`. -/
def event_is_valid (e : ICalEvent) : Bool :=
  e.dtstart.isSome && e.summary.isSome

/-- The category-append loop of `postprocess.augment_event`: for each
configured category not in `set(existing.cats)`, the code runs
`existing.cats.append()` — `append` with no argument — which raises
`TypeError`; when every configured category is already present the loop
completes without appending anything. -/
def appendMissing (existingSet : List String) : List String → Except PyErr Unit
  | [] => Except.ok ()
  | c :: rest =>
    if existingSet.contains c then appendMissing existingSet rest
    else Except.error PyErr.typeError

/-- The category block of `postprocess.augment_event` (lines 232-239),
given the configured categories and the result of
`event.pop("categories")`: when the pop returned `None` the truthiness
check skips the whole block (the configured categories are dropped);
otherwise the loop runs and the surviving `existing.cats` list is added
back. -/
def merge_categories (existing? : Option (List String)) (cats : List String) :
    Except PyErr (Option (List String)) :=
  match existing? with
  | none => Except.ok none
  | some existing =>
    match appendMissing existing cats with
    | Except.error e => Except.error e
    | Except.ok _ => Except.ok (some existing)

/-- First-non-empty-wins scanner over a candidate list: skips absent
and falsy candidates, and candidates whose `parse_datetime` yields no
value; the first candidate that parses to a value wins and nothing
after it is consulted. -/
def first_time_value : List (Option TimeVal) → Option ParsedDT
  | [] => none
  | none :: rest => first_time_value rest
  | some f :: rest =>
    if f.truthy then
      match parse_datetime f with
      | some v => some v
      | none => first_time_value rest
    else first_time_value rest

/-- The consultation order asserted by the spec for `get_times`: the
reservation's own `startTime`, then its own `startDate`, then
`reservationFor`'s `startTime`, then its `startDate` (symmetrically for
end). -/
def get_times_claimed (r : Reservation) : Option ParsedDT × Option ParsedDT :=
  let rf := (r.reservationFor.getD ResFor.empty).sched
  (first_time_value [r.sched.startTime, r.sched.startDate, rf.startTime, rf.startDate],
   first_time_value [r.sched.endTime, r.sched.endDate, rf.endTime, rf.endDate])

/-- Removal of exactly one trailing `"Action"` suffix (and only that
suffix), as the spec describes the action-type label. -/
def stripActionSuffix (s : String) : String :=
  let r := s.data.reverse
  if r.take 6 = ("Action").data.reverse then String.mk ((r.drop 6).reverse) else s

/-- The flight summary format as the spec states it: `"Flight
{identifier}: {origin} to {destination}"`, the identifier segment and
its leading space omitted when the identifier is empty, origin and
destination rendered by the airport-label rule (`airport_repr`), with
`"[unknown]"` for a wholly unknown destination and an empty origin
segment for a wholly unknown origin. -/
def claimed_flight_summary (ident : String)
    (depName depIata arrName arrIata : Option String) : String :=
  "Flight" ++ (if ident == "" then "" else " " ++ ident) ++ ": "
    ++ (airport_repr depName depIata).getD ""
    ++ " to " ++ (airport_repr arrName arrIata).getD "[unknown]"

/-- The all-absent scheduling record. -/
def schedNone : SchedTimes := ⟨none, none, none, none⟩

/-- Concrete flight reservation of the spec's worked example: airline
IATA "BA", flight number "123", origin name "Heathrow" and code "LHR",
destination code "JFK" only, with a departure time so that the
converter yields an event. -/
def exFlightRF : ResFor :=
  { name := none
    sched := schedNone
    departureTime := some (TimeVal.str "2024-07-01T10:00:00+00:00")
    arrivalTime := none
    departureDay := none
    departureTerminal := none
    airline := some { iataCode := some "BA" }
    flightNumber := some "123"
    departureAirport := some
      { name := some "Heathrow", iataCode := some "LHR", geo := none, address := none }
    arrivalAirport := some
      { name := none, iataCode := some "JFK", geo := none, address := none }
    address := none
    location := none
    geo := none }

def exFlightRes : Reservation :=
  { atType := "FlightReservation"
    reservationFor := some exFlightRF
    sched := schedNone
    reservationNumber := none
    potentialAction := none
    checkinTime := none
    checkoutTime := none }

/-- The event the flight converter produces for `exFlightRes`. -/
def exFlightEvent : ICalEvent :=
  { dtstart := some (EventDT.fromParsed (ParsedDT.parsed "2024-07-01T10:00:00+00:00"))
    dtend := none
    duration := none
    location := some "Heathrow (LHR)"
    geo := none
    summary := some "Flight BA123: Heathrow (LHR) to JFK"
    description := []
    categories := none
    attendees := [] }

/-- Reservation whose own `startDate` and whose `reservationFor`'s
`startTime` are both present and distinct: the two candidate orders
disagree on it. -/
def exOrderRes : Reservation :=
  { atType := "EventReservation"
    reservationFor := some
      { ResFor.empty with sched :=
          { schedNone with startTime := some (TimeVal.str "2024-06-02T10:00:00") } }
    sched := { schedNone with startDate := some (TimeVal.str "2024-05-01") }
    reservationNumber := none
    potentialAction := none
    checkinTime := none
    checkoutTime := none }

/-- Reservation with a single potential action whose type is the
schema.org type `CheckInAction` (which does not end there after one
`"Action"` suffix is removed: `rstrip` keeps eating). -/
def exActionRes : Reservation :=
  { atType := "EventReservation"
    reservationFor := some { ResFor.empty with name := some "Conference" }
    sched := schedNone
    reservationNumber := none
    potentialAction := some
      [{ atType := "CheckInAction", target := some "https://example.com/checkin" }]
    checkinTime := none
    checkoutTime := none }

/-- The event the generic converter produces for `exActionRes`. -/
def exActionEvent : ICalEvent :=
  { dtstart := none
    dtend := none
    duration := none
    location := none
    geo := none
    summary := some "Conference"
    description := ["CheckI: https://example.com/checkin"]
    categories := none
    attendees := [] }

/-- Reservation with a `reservationFor` but no time information at all:
no converter can establish a start for it. -/
def exNoTimeRes : Reservation :=
  { atType := "FlightReservation"
    reservationFor := some ResFor.empty
    sched := schedNone
    reservationNumber := none
    potentialAction := none
    checkinTime := none
    checkoutTime := none }

/-- C1: the spec claims the Event Augmenter resolves every
configuration option by type-then-global fallback and never rejects an
event.  In the code, every single call of `get_res_conf_option` raises
`TypeError`: it passes the key segments to `chained_get` as separate
positional arguments, so the third one binds the `default` parameter
that is also given as a keyword argument (and the outer call passes
four positional arguments to a three-parameter function).  No lookup is
ever resolved and the augmentation step always raises. -/
theorem c1_get_res_conf_option_always_raises (config : List (String × PyVal))
    (key res_type : String) (dflt : PyVal) :
    get_res_conf_option config key res_type dflt = Except.error PyErr.typeError := rfl

/-- C3: the conflict search window is the whole day `[midnight(start),
midnight(start) + 1 day)` for a bare-date start with no end; for a
bare-date start and bare-date end the end becomes midnight of the day
after the end; and for a time-of-day start with no end the window is
`(start - 1 s, start + 1 s)`. -/
theorem c3_conflict_window :
    (∀ d : Int, get_conflicts_window (some (PyDate.date d)) none
      = Except.ok (secondsPerDay * d, secondsPerDay * d + secondsPerDay))
  ∧ (∀ d d' : Int,
      get_conflicts_window (some (PyDate.date d)) (some (PyDate.date d'))
        = Except.ok (secondsPerDay * d, secondsPerDay * d' + secondsPerDay))
  ∧ (∀ t : Int, get_conflicts_window (some (PyDate.datetime t)) none
      = Except.ok (t - 1, t + 1)) :=
  ⟨fun _ => rfl, fun _ _ => rfl, fun _ => rfl⟩

/-- C6: `parse_datetime` accepts a plain string (returned as parsed)
and a record with a timezone (converted to that zone), but a record
without a timezone falls off the end of the function and yields `None`
instead of the parsed value the spec promises. -/
theorem c6_parse_datetime_cases :
    (∀ s, parse_datetime (TimeVal.str s) = some (ParsedDT.parsed s))
  ∧ (∀ v tz, parse_datetime (TimeVal.dict v (some tz)) = some (ParsedDT.inZone v tz))
  ∧ (∀ v, parse_datetime (TimeVal.dict v none) = none) :=
  ⟨fun _ => rfl, fun _ _ => rfl, fun _ => rfl⟩

/-- C8: the category merge of `augment_event` does not behave as the
spec claims: on the spec's own example (existing `["Work"]`, configured
`["Work", "Travel"]`) the code raises `TypeError`, because the append
of a missing category is written `existing.cats.append()` with no
argument; and when the event has no categories yet, the falsy result of
`event.pop("categories")` makes the block drop the configured
categories entirely. -/
theorem c8_category_merge_bug :
    merge_categories (some ["Work"]) ["Work", "Travel"]
      = Except.error PyErr.typeError
  ∧ (∀ cats, merge_categories none cats = Except.ok none) :=
  ⟨rfl, fun _ => rfl⟩

/-- The uninstrumented loop is the instrumented loop with the default
plugged in for `none`. -/
theorem cgLoop_eq_probe (ks : List String) (result dflt : PyVal) :
    cgLoop ks result dflt =
      (match cgProbe ks result with
       | Except.ok (some v) => Except.ok v
       | Except.ok none => Except.ok dflt
       | Except.error e => Except.error e) := by
  induction ks generalizing result with
  | nil => rfl
  | cons k rest ih =>
    simp only [cgLoop, cgProbe]
    cases pyContains result k with
    | error e => rfl
    | ok b =>
      cases b with
      | false => rfl
      | true =>
        cases pyIndex result k with
        | error e => rfl
        | ok v => exact ih v

/-- C10: a single-segment key that is absent from the dict makes
`chained_get` return the empty dict `{}`, not the supplied default; and
the default is returned exactly when the probe of the walk over the
non-initial segments (`keys[1:]`) hits a missing segment, which
requires the key path to have at least two segments. -/
theorem c10_chained_get_default_behaviour :
    (∀ (d : List (String × PyVal)) (k : String) (dflt : PyVal),
      splitDot k = [k] → d.find? (fun p => p.1 == k) = none →
      chained_get d k dflt = Except.ok (PyVal.vDict []))
  ∧ (∀ (d : List (String × PyVal)) (k : String) (dflt : PyVal),
      chained_get d k dflt =
        (match chainedGetProbe d k with
         | Except.ok (some v) => Except.ok v
         | Except.ok none => Except.ok dflt
         | Except.error e => Except.error e))
  ∧ (∀ (d : List (String × PyVal)) (k : String),
      chainedGetProbe d k = Except.ok none → 2 ≤ (splitDot k).length) := by
  refine ⟨?_, ?_, ?_⟩
  · intro d k dflt hsplit hfind
    simp only [chained_get, hsplit, List.tail_cons, List.headD_cons, cgLoop]
    simp only [dictGetD, hfind]
  · intro d k dflt
    simp only [chained_get, chainedGetProbe]
    exact cgLoop_eq_probe _ _ _
  · intro d k h
    simp only [chainedGetProbe] at h
    cases hk : splitDot k with
    | nil => rw [hk] at h; simp [cgProbe] at h
    | cons a rest =>
      cases rest with
      | nil => rw [hk] at h; simp [cgProbe] at h
      | cons b rest2 => simp only [List.length_cons]; omega

/-- Witness for C10 at concrete inputs: the dict `{"a": "x"}` with the
absent single-segment key `"b"` and default `"z"` yields `{}`, and the
probe of `{}` with the two-segment key `"a.b"` hits the missing-segment
branch. -/
theorem c10_witness :
    chained_get [("a", PyVal.vStr "x")] "b" (PyVal.vStr "z")
      = Except.ok (PyVal.vDict [])
  ∧ 2 ≤ (splitDot "a.b").length :=
  ⟨c10_chained_get_default_behaviour.1 [("a", PyVal.vStr "x")] "b" (PyVal.vStr "z")
      rfl rfl,
   c10_chained_get_default_behaviour.2.2 [] "a.b" rfl⟩

/-- The dedup loop output is a sublist of its input. -/
theorem dedupLoop_sublist (seen : List (Option Int × Option Int)) (l : List EvtRec) :
    (dedupLoop seen l).Sublist l := by
  induction l generalizing seen with
  | nil => exact List.Sublist.refl _
  | cons e rest ih =>
    simp only [dedupLoop]
    by_cases h : dedupKey e ∈ seen
    · exact (if_pos h ▸ (ih seen).cons e)
    · exact (if_neg h ▸ (ih _).cons₂ e)

/-- Every kept event's key was not in the seen set. -/
theorem mem_dedupLoop_not_seen {seen : List (Option Int × Option Int)}
    {l : List EvtRec} {e : EvtRec} (h : e ∈ dedupLoop seen l) :
    dedupKey e ∉ seen := by
  induction l generalizing seen with
  | nil => simp [dedupLoop] at h
  | cons a rest ih =>
    simp only [dedupLoop] at h
    by_cases ha : dedupKey a ∈ seen
    · rw [if_pos ha] at h
      exact ih h
    · rw [if_neg ha] at h
      rcases List.mem_cons.mp h with rfl | h2
      · exact ha
      · intro hc
        exact ih h2 (List.mem_cons_of_mem _ hc)

/-- The kept events have pairwise distinct keys. -/
theorem dedupLoop_pairwise (seen : List (Option Int × Option Int)) (l : List EvtRec) :
    (dedupLoop seen l).Pairwise (fun a b => dedupKey a ≠ dedupKey b) := by
  induction l generalizing seen with
  | nil => exact List.Pairwise.nil
  | cons e rest ih =>
    simp only [dedupLoop]
    by_cases h : dedupKey e ∈ seen
    · rw [if_pos h]; exact ih seen
    · rw [if_neg h]
      refine List.Pairwise.cons ?_ (ih _)
      intro b hb hkey
      exact mem_dedupLoop_not_seen hb (hkey ▸ List.mem_cons_self _ _)

/-- For a key not yet seen, the first kept event with that key is the
first input event with that key. -/
theorem dedupLoop_find? (seen : List (Option Int × Option Int)) (l : List EvtRec)
    (k : Option Int × Option Int) (hk : k ∉ seen) :
    (dedupLoop seen l).find? (fun e => decide (dedupKey e = k))
      = l.find? (fun e => decide (dedupKey e = k)) := by
  induction l generalizing seen with
  | nil => rfl
  | cons e rest ih =>
    simp only [dedupLoop]
    by_cases h : dedupKey e ∈ seen
    · rw [if_pos h]
      have hne : dedupKey e ≠ k := fun hek => hk (hek ▸ h)
      rw [List.find?_cons_of_neg _ (by simpa using hne)]
      exact ih seen hk
    · rw [if_neg h]
      by_cases he : dedupKey e = k
      · rw [List.find?_cons_of_pos _ (by simpa using he),
          List.find?_cons_of_pos _ (by simpa using he)]
      · rw [List.find?_cons_of_neg _ (by simpa using he),
          List.find?_cons_of_neg _ (by simpa using he)]
        exact ih _ (by
          intro hc
          rcases List.mem_cons.mp hc with h1 | h2
          · exact he h1.symm
          · exact hk h2)

/-- The dedup loop is the identity on a list whose keys are pairwise
distinct and disjoint from the seen set. -/
theorem dedupLoop_eq_self (seen : List (Option Int × Option Int)) (l : List EvtRec)
    (h1 : ∀ e ∈ l, dedupKey e ∉ seen)
    (h2 : l.Pairwise (fun a b => dedupKey a ≠ dedupKey b)) :
    dedupLoop seen l = l := by
  induction l generalizing seen with
  | nil => rfl
  | cons e rest ih =>
    simp only [dedupLoop]
    rw [if_neg (h1 e (List.mem_cons_self _ _))]
    congr 1
    refine ih _ ?_ (List.Pairwise.of_cons h2)
    intro b hb hc
    rcases List.mem_cons.mp hc with h3 | h4
    · exact (List.pairwise_cons.mp h2).1 b hb h3.symm
    · exact h1 b (List.mem_cons_of_mem _ hb) h4

/-- C2: the deduplicated output has pairwise distinct `(start, end)`
keys (absent values compare equal as `none`), is a subsequence of the
input, keeps for every key exactly the first input event carrying it,
and is idempotent. -/
theorem c2_dedup_first_occurrence (x : List EvtRec) :
    (dedup x).Pairwise (fun a b => dedupKey a ≠ dedupKey b)
  ∧ (dedup x).Sublist x
  ∧ (∀ k, (dedup x).find? (fun e => decide (dedupKey e = k))
      = x.find? (fun e => decide (dedupKey e = k)))
  ∧ dedup (dedup x) = dedup x := by
  refine ⟨dedupLoop_pairwise [] x, dedupLoop_sublist [] x,
    fun k => dedupLoop_find? [] x k (List.not_mem_nil k), ?_⟩
  exact dedupLoop_eq_self [] (dedup x) (fun e _ => List.not_mem_nil _)
    (dedupLoop_pairwise [] x)

/-- Once a side's slot holds a value, the inner loop leaves the state
unchanged (the guard `not found.get(s)` blocks every assignment). -/
theorem dLoop_of_get_some {s : Side} {tkind : Bool} {found : Found} {v : ParsedDT}
    (ds : List SchedTimes) (h : found.get s = some v) :
    dLoop s tkind found ds = found := by
  induction ds with
  | nil => rfl
  | cons d rest ih =>
    simp only [dLoop, h]
    cases d.get s tkind <;> exact ih

/-- With one side's slot empty the break test of `get_times` fails. -/
theorem breakCond_false {found : Found} {s : Side} (h : found.get s = none) :
    (found.start.isSome && found.stop.isSome) = false := by
  cases s <;> simp_all [Found.get]

/-- Writing `none` into an already-empty slot is a no-op. -/
theorem set_none_eq {found : Found} {s : Side} (h : found.get s = none) :
    found.set s none = found := by
  cases s <;> (cases found; simp_all [Found.get, Found.set])

/-- `Found.set` then `Found.get` on the same side. -/
theorem get_set_self (found : Found) (s : Side) (x : Option ParsedDT) :
    (found.set s x).get s = x := by
  cases s <;> rfl

/-- The inner loop of `get_times` over an empty slot assigns to that
slot the first value of the candidate list that is truthy and parses,
and nothing else. -/
theorem dLoop_eq_set (s : Side) (tkind : Bool) (found : Found) (ds : List SchedTimes)
    (h : found.get s = none) :
    dLoop s tkind found ds
      = found.set s (first_time_value (ds.map (fun d => d.get s tkind))) := by
  induction ds generalizing found with
  | nil => simp [dLoop, first_time_value, set_none_eq h]
  | cons d rest ih =>
    simp only [dLoop, List.map_cons, h]
    cases hd : d.get s tkind with
    | none =>
      simp only [first_time_value]
      exact ih found h
    | some f =>
      by_cases ht : f.truthy = true
      · simp only [first_time_value, ht, if_pos]
        cases hp : parse_datetime f with
        | none =>
          rw [set_none_eq h, breakCond_false h]
          simp only [Bool.false_eq_true, if_false]
          exact ih found h
        | some v =>
          by_cases hb : (((found.set s (some v)).start.isSome
              && (found.set s (some v)).stop.isSome) = true)
          · rw [if_pos hb]
          · rw [if_neg hb]
            exact dLoop_of_get_some rest (get_set_self found s (some v))
      · simp only [first_time_value, ht, if_neg, Bool.false_eq_true, if_false]
        exact ih found h

/-- Scanning a concatenation: the first part wins when it yields a
value, else the scan continues in the second part. -/
theorem first_time_value_append (l1 l2 : List (Option TimeVal)) :
    first_time_value (l1 ++ l2)
      = (match first_time_value l1 with
         | some v => some v
         | none => first_time_value l2) := by
  induction l1 with
  | nil => rfl
  | cons c rest ih =>
    cases c with
    | none => simpa [first_time_value] using ih
    | some f =>
      by_cases ht : f.truthy = true
      · simp only [List.cons_append, first_time_value, ht, if_pos]
        cases parse_datetime f <;> simp [ih]
      · simp only [List.cons_append, first_time_value, ht, Bool.false_eq_true,
          if_false]
        exact ih

/-- Two consecutive inner passes (the `Time` key then the `Date` key)
over an empty slot scan the concatenated candidate list. -/
theorem dLoop_two_passes (s : Side) (found : Found) (ds : List SchedTimes)
    (h : found.get s = none) :
    dLoop s false (dLoop s true found ds) ds
      = found.set s (first_time_value
          (ds.map (fun d => d.get s true) ++ ds.map (fun d => d.get s false))) := by
  rw [dLoop_eq_set s true found ds h, first_time_value_append]
  cases hA : first_time_value (ds.map (fun d => d.get s true)) with
  | some v => exact dLoop_of_get_some ds (get_set_self found s (some v))
  | none =>
    rw [dLoop_eq_set s false _ ds (get_set_self found s none)]
    cases s <;> rfl

/-- C5 (amended): `get_times` consults the candidates of each side in
the order own `startTime`, `reservationFor`'s `startTime`, own
`startDate`, `reservationFor`'s `startDate` (the `Time` key is checked
on both dicts before the `Date` key; symmetrically for end), and for
each side the first non-empty candidate whose parse yields a value
wins, with no later candidate consulted. -/
theorem c5_get_times_candidate_order (r : Reservation) :
    get_times r =
      (first_time_value [r.sched.startTime,
         ((r.reservationFor.getD ResFor.empty).sched).startTime,
         r.sched.startDate, ((r.reservationFor.getD ResFor.empty).sched).startDate],
       first_time_value [r.sched.endTime,
         ((r.reservationFor.getD ResFor.empty).sched).endTime,
         r.sched.endDate, ((r.reservationFor.getD ResFor.empty).sched).endDate]) := by
  simp only [get_times]
  have hstop : ∀ x : Option ParsedDT,
      (Found.set ⟨none, none⟩ Side.start x).get Side.stop = none := fun _ => rfl
  rw [dLoop_two_passes Side.start ⟨none, none⟩ _ rfl,
    dLoop_two_passes Side.stop _ _ (hstop _)]
  rfl

/-- Counterexample to C5 as stated: on a reservation whose own
`startDate` and whose `reservationFor`'s `startTime` are both present,
the code picks the `reservationFor` `startTime` while the claimed order
(own `startTime` then own `startDate` first) picks the own
`startDate`. -/
theorem c5_order_counterexample :
    get_times exOrderRes ≠ get_times_claimed exOrderRes := by decide

/-- C4: a flight reservation whose start cannot be established (no
start resolved by `get_times`, no truthy `departureTime`, no truthy
`departureDay`) converts to no event rather than a null-start event; a
lodging reservation with no resolved start and no check-in timestamp
likewise; and the validity gate passes an event iff it has both a
summary and a start. -/
theorem c4_reject_without_start :
    (∀ (r : Reservation) (rf : ResFor), r.reservationFor = some rf →
      (get_times r).1 = none → rf.departureTime = none → rf.departureDay = none →
      flight_reservation_to_ical_event r = Except.ok none)
  ∧ (∀ (r : Reservation) (rf : ResFor), r.reservationFor = some rf →
      (get_times r).1 = none → r.checkinTime = none →
      lodging_reservation_to_ical_event r = Except.ok none)
  ∧ (∀ e : ICalEvent, event_is_valid e = true
      ↔ (e.summary.isSome ∧ e.dtstart.isSome)) := by
  refine ⟨?_, ?_, ?_⟩
  · intro r rf hrf hstart hdt hdd
    simp [flight_reservation_to_ical_event, generic_reservation_to_ical_event, hrf,
      flightDepStart, hdt, hdd, hstart]
  · intro r rf hrf hstart hci
    simp [lodging_reservation_to_ical_event, generic_reservation_to_ical_event, hrf,
      hci, hstart]
  · intro e
    simp [event_is_valid, Bool.and_eq_true, and_comm]

/-- Witness for C4 at concrete inputs: the no-time reservation is
rejected by both converters, and the validity gate applied to the
sample flight event decomposes as claimed. -/
theorem c4_witness :
    flight_reservation_to_ical_event exNoTimeRes = Except.ok none
  ∧ lodging_reservation_to_ical_event exNoTimeRes = Except.ok none
  ∧ (event_is_valid exFlightEvent = true
      ↔ (exFlightEvent.summary.isSome ∧ exFlightEvent.dtstart.isSome)) :=
  ⟨c4_reject_without_start.1 exNoTimeRes ResFor.empty rfl rfl rfl rfl,
   c4_reject_without_start.2.1 exNoTimeRes ResFor.empty rfl rfl rfl,
   c4_reject_without_start.2.2 exFlightEvent⟩

/-- With pairwise-distinct action types, none already a key of the
accumulator, the `OrderedDict` accumulation appends one entry per
action with a target, in input order. -/
theorem actionUrlsLoop_eq (acts : List ActionRec) (m : List (String × String))
    (hdist : acts.Pairwise (fun a b => a.atType ≠ b.atType))
    (hm : ∀ a ∈ acts, ∀ p ∈ m, p.1 ≠ a.atType) :
    actionUrlsLoop acts m
      = m ++ acts.filterMap (fun a => a.target.map (fun t => (a.atType, t))) := by
  induction acts generalizing m with
  | nil => simp [actionUrlsLoop]
  | cons a rest ih =>
    simp only [actionUrlsLoop]
    cases ha : a.target with
    | none =>
      simp only [List.filterMap_cons, ha]
      exact ih m (List.Pairwise.of_cons hdist)
        (fun b hb p hp => hm b (List.mem_cons_of_mem _ hb) p hp)
    | some t =>
      have hnk : (m.any (fun p => p.1 == a.atType)) = false := by
        rw [List.any_eq_false]
        intro p hp
        simpa using hm a (List.mem_cons_self _ _) p hp
      simp only [odInsert, hnk, Bool.false_eq_true, if_false]
      rw [ih (m ++ [(a.atType, t)]) (List.Pairwise.of_cons hdist) ?_]
      · simp [List.filterMap_cons, ha]
      · intro b hb p hp
        rcases List.mem_append.mp hp with h1 | h2
        · exact hm b (List.mem_cons_of_mem _ hb) p h1
        · rcases List.mem_singleton.mp h2 with rfl
          exact (List.pairwise_cons.mp hdist).1 b hb

/-- C9 (amended): for a reservation whose potential actions have
pairwise-distinct types, the generic converter's description lines
contain one line per action whose target is present, in order, each
formed from the action's type with all trailing characters drawn from
the character set `"Action"` removed (Python `rstrip` semantics, not
single-suffix removal), followed by `": "` and the target URL. -/
theorem c9_action_description_lines (r : Reservation) (acts : List ActionRec)
    (hpa : r.potentialAction = some acts)
    (hdist : acts.Pairwise (fun a b => a.atType ≠ b.atType)) :
    ∃ pre, genericDescLines r
      = pre ++ acts.filterMap
          (fun a => a.target.map (fun t => pyRstrip a.atType "Action" ++ ": " ++ t)) := by
  refine ⟨(match r.reservationNumber with
           | some n => if n != "" then ["Reservation number: " ++ n] else []
           | none => []), ?_⟩
  simp only [genericDescLines, get_action_urls, hpa]
  rw [actionUrlsLoop_eq acts [] hdist (by simp)]
  simp only [List.nil_append, List.map_filterMap, Option.map_map]
  rfl

/-- Witness for C9 (amended) at a concrete input: the single
`CheckInAction` yields exactly its one description line. -/
theorem c9_witness :
    ∃ pre, genericDescLines exActionRes
      = pre ++ [pyRstrip "CheckInAction" "Action" ++ ": " ++ "https://example.com/checkin"] := by
  have h := c9_action_description_lines exActionRes
    [{ atType := "CheckInAction", target := some "https://example.com/checkin" }]
    rfl (by simp)
  simpa using h

/-- Counterexample to C9 as stated: `rstrip("Action")` removes the
trailing character run drawn from the set `{A,c,t,i,o,n}`, so the
schema.org type `CheckInAction` is rendered `"CheckI"`, not the
`"CheckIn"` that stripping only the `"Action"` suffix would give. -/
theorem c9_rstrip_counterexample :
    generic_reservation_to_ical_event exActionRes = Except.ok (some exActionEvent)
  ∧ exActionEvent.description = ["CheckI" ++ ": " ++ "https://example.com/checkin"]
  ∧ stripActionSuffix "CheckInAction" = "CheckIn"
  ∧ exActionEvent.description
      ≠ [stripActionSuffix "CheckInAction" ++ ": " ++ "https://example.com/checkin"] :=
  ⟨rfl, by decide, by decide, by decide⟩

/-- The conditional on the identifier segment, written with Python
truthiness on the left and the spec's emptiness test on the right. -/
theorem bne_empty_ite (fi x : String) :
    (if fi != "" then x else "") = (if fi == "" then "" else x) := by
  cases h : fi == "" <;> simp [bne, h]

/-- The summary the flight converter's tail writes is exactly the
spec's format: identifier segment omitted when empty, origin and
destination labels from `airport_repr`, destination defaulting to
`"[unknown]"`. -/
theorem flightFinish_summary (r : Reservation) (rf : ResFor) (fi : String)
    (ev2 : ICalEvent) :
    (flightFinish r rf fi ev2).summary
      = some (claimed_flight_summary fi
          (rf.departureAirport >>= Airport.name)
          (rf.departureAirport >>= Airport.iataCode)
          (rf.arrivalAirport >>= Airport.name)
          (rf.arrivalAirport >>= Airport.iataCode)) := by
  unfold flightFinish claimed_flight_summary
  rw [← bne_empty_ite]
  cases hda : rf.departureAirport with
  | none =>
    try dsimp only
    cases r.reservationNumber with
    | none => rfl
    | some n =>
      try dsimp only
      by_cases hn : (n != "") = true
      · rw [if_pos hn]; rfl
      · rw [if_neg hn]; rfl
  | some a =>
    try dsimp only
    by_cases ht : a.truthy = true
    · rw [if_pos ht]
      try dsimp only
      cases r.reservationNumber with
      | none => rfl
      | some n =>
        try dsimp only
        by_cases hn : (n != "") = true
        · rw [if_pos hn]; rfl
        · rw [if_neg hn]; rfl
    · rw [if_neg ht]
      have hname : a.name = none := by
        cases ha : a.name
        · rfl
        · exact absurd (by simp [Airport.truthy, ha]) ht
      have hiata : a.iataCode = none := by
        cases hi : a.iataCode
        · rfl
        · exact absurd (by simp [Airport.truthy, hi]) ht
      try dsimp only
      have hb1 : ((some a : Option Airport) >>= Airport.name) = a.name := rfl
      have hb2 : ((some a : Option Airport) >>= Airport.iataCode) = a.iataCode := rfl
      rw [hb1, hb2, hname, hiata]
      cases r.reservationNumber with
      | none => rfl
      | some n =>
        try dsimp only
        by_cases hn : (n != "") = true
        · rw [if_pos hn]
        · rw [if_neg hn]

/-- C7: whenever the flight converter yields an event, its summary is
`"Flight {identifier}: {origin} to {destination}"` with the identifier
segment and its leading space omitted when the identifier (airline IATA
code or `""`, concatenated with the flight number) is empty, and origin
and destination rendered by the airport-label rule of `airport_repr`
(name alone, code alone, `"name (code)"`, destination `"[unknown]"`
when wholly unknown). -/
theorem c7_flight_summary_format (r : Reservation) (rf : ResFor) (fn : String)
    (e : ICalEvent)
    (hrf : r.reservationFor = some rf) (hfn : rf.flightNumber = some fn)
    (hok : flight_reservation_to_ical_event r = Except.ok (some e)) :
    e.summary = some (claimed_flight_summary
      (((rf.airline.getD { iataCode := none }).iataCode).getD "" ++ fn)
      (rf.departureAirport >>= Airport.name)
      (rf.departureAirport >>= Airport.iataCode)
      (rf.arrivalAirport >>= Airport.name)
      (rf.arrivalAirport >>= Airport.iataCode)) := by
  simp only [flight_reservation_to_ical_event, generic_reservation_to_ical_event,
    hrf, hfn] at hok
  repeat' split at hok
  all_goals
    first
      | (simp only [Except.ok.injEq, Option.some.injEq] at hok
         exact hok ▸ flightFinish_summary r rf _ _)
      | exact absurd hok (by simp)

/-- Witness for C7 at the spec's worked example: airline "BA", flight
number "123", Heathrow/LHR to JFK-only gives the summary
`"Flight BA123: Heathrow (LHR) to JFK"`. -/
theorem c7_witness :
    flight_reservation_to_ical_event exFlightRes = Except.ok (some exFlightEvent)
  ∧ exFlightEvent.summary = some "Flight BA123: Heathrow (LHR) to JFK" := by
  constructor
  · rfl
  · have h := c7_flight_summary_format exFlightRes exFlightRF "123" exFlightEvent
      rfl rfl rfl
    exact h.trans (by decide)
